import Mathlib

/-!
Verification of the fs-lie-detector repository specification.

This file gives a shallow embedding of the two source files of the
repository — `src/lie_detector/datasets/trial_dataset.py` (the dataset
materializer) and `src/web/server/app.py` (the Flask prediction service) —
and proves or refutes the specification's claims about them.

Filenames are embedded as `List Char` (a Python `str`), filesystem paths as
`List String` (a sequence of path components), and the mutable process
state (filesystem contents, current working directory, and a trace of the
external work performed) as an explicit record threaded through each
operation.  Exceptions are embedded as `Except`, with the error case
carrying the process state at the moment the exception propagates.
-/

namespace WebApp

/-- Python's `str.lower()` restricted to ASCII, applied per character.
Mirrors what `.lower()` does on the extension strings compared against
`ALLOWED_EXTENSIONS` (all relevant strings here are ASCII). -/
def lowerChar (c : Char) : Char :=
  if 'A' ≤ c ∧ c ≤ 'Z' then Char.ofNat (c.toNat + 32) else c

/-- Python's `str.lower()` on a string embedded as a character list. -/
def lowerStr (s : List Char) : List Char :=
  s.map lowerChar

/-- Python's `fname.split('.')`: split a string at every `'.'`, keeping
empty segments, exactly as `str.split` with an explicit separator does.
`splitOnDot [] = [[]]`, matching `''.split('.') == ['']`. -/
def splitOnDot : List Char → List (List Char)
  | [] => [[]]
  | c :: cs =>
    if c = '.' then [] :: splitOnDot cs
    else
      match splitOnDot cs with
      | [] => [[c]]
      | p :: ps => (c :: p) :: ps

/-- Constant `ALLOWED_EXTENSIONS = set(['mp4'])` from `src/web/server/app.py`. -/
def ALLOWED_EXTENSIONS : List (List Char) :=
  [['m', 'p', '4']]

/-- Function `_allowed_file` from `src/web/server/app.py`:
`'.' in fname and fname.split('.')[1].lower() in ALLOWED_EXTENSIONS`.
When `'.'` occurs in `fname`, the split has at least two segments, so the
index `[1]` never fails; the embedding returns `false` for an absent
index, which is unreachable under the `'.' in fname` guard. -/
def allowed_file (fname : List Char) : Bool :=
  fname.contains '.' &&
    match (splitOnDot fname).get? 1 with
    | some seg => ALLOWED_EXTENSIONS.contains (lowerStr seg)
    | none => false

/-- The segment of a filename strictly between its first `'.'` and the
next `'.'` (or the end of the string); `none` when the filename contains
no `'.'`.  This follows the wording of the claim about the extension
check, to be compared with `allowed_file` from the source. -/
def afterFirstDot : List Char → Option (List Char)
  | [] => none
  | c :: cs =>
    if c = '.' then some (cs.takeWhile (fun d => d ≠ '.'))
    else afterFirstDot cs

theorem splitOnDot_ne_nil (l : List Char) : splitOnDot l ≠ [] := by
  induction l with
  | nil => simp [splitOnDot]
  | cons c cs ih =>
    simp only [splitOnDot]
    split
    · simp
    · cases h : splitOnDot cs with
      | nil => simp
      | cons p ps => simp

theorem splitOnDot_head (l : List Char) :
    (splitOnDot l).head? = some (l.takeWhile (fun d => d ≠ '.')) := by
  induction l with
  | nil => simp [splitOnDot]
  | cons c cs ih =>
    by_cases hc : c = '.'
    · subst hc
      simp [splitOnDot]
    · simp only [splitOnDot, if_neg hc]
      cases hsp : splitOnDot cs with
      | nil => exact absurd hsp (splitOnDot_ne_nil cs)
      | cons p ps =>
        simp only [hsp, List.head?, Option.some.injEq] at ih ⊢
        simp [List.takeWhile_cons, hc, ih]

theorem splitOnDot_get1_eq_afterFirstDot (l : List Char) (h : '.' ∈ l) :
    (splitOnDot l).get? 1 = afterFirstDot l := by
  induction l with
  | nil => simp at h
  | cons c cs ih =>
    by_cases hc : c = '.'
    · subst hc
      simp only [splitOnDot, afterFirstDot, if_pos rfl]
      cases hsp : splitOnDot cs with
      | nil => exact absurd hsp (splitOnDot_ne_nil cs)
      | cons p ps =>
        have hh := splitOnDot_head cs
        simp only [hsp, List.head?] at hh
        simp [List.get?, hh]
    · have h' : '.' ∈ cs := by
        rcases List.mem_cons.mp h with h1 | h1
        · exact absurd h1.symm hc
        · exact h1
      simp only [splitOnDot, afterFirstDot, if_neg hc]
      cases hsp : splitOnDot cs with
      | nil => exact absurd hsp (splitOnDot_ne_nil cs)
      | cons p ps =>
        have := ih h'
        simp only [hsp] at this
        simpa [List.get?] using this


theorem afterFirstDot_eq_none (l : List Char) (h : '.' ∉ l) :
    afterFirstDot l = none := by
  induction l with
  | nil => rfl
  | cons c cs ih =>
    have hc : ¬ c = '.' := fun he => h (he ▸ List.mem_cons_self c cs)
    simp only [afterFirstDot, if_neg hc]
    exact ih (fun hm => h (List.mem_cons_of_mem c hm))

theorem afterFirstDot_isSome (l : List Char) (h : '.' ∈ l) :
    ∃ seg, afterFirstDot l = some seg := by
  induction l with
  | nil => simp at h
  | cons c cs ih =>
    by_cases hc : c = '.'
    · subst hc
      exact ⟨cs.takeWhile (fun d => d ≠ '.'), by simp [afterFirstDot]⟩
    · have h' : '.' ∈ cs := by
        rcases List.mem_cons.mp h with h1 | h1
        · exact absurd h1.symm hc
        · exact h1
      simpa [afterFirstDot, if_neg hc] using ih h'

theorem mem_allowed_extensions (x : List Char) :
    ALLOWED_EXTENSIONS.contains x = true ↔ x = ['m', 'p', '4'] := by
  rw [List.elem_iff]
  simp [ALLOWED_EXTENSIONS]

/-- Characterisation of `_allowed_file`: it accepts exactly the filenames
containing a dot whose segment between the first dot and the next dot (or
the end), lowercased, is `mp4`. -/
theorem allowed_file_iff (fname : List Char) :
    allowed_file fname = true ↔
      ∃ seg, afterFirstDot fname = some seg ∧ lowerStr seg = ['m', 'p', '4'] := by
  by_cases h : '.' ∈ fname
  · have hc : fname.contains '.' = true := List.elem_iff.mpr h
    obtain ⟨seg, hseg⟩ := afterFirstDot_isSome fname h
    have h1 : (splitOnDot fname).get? 1 = some seg :=
      (splitOnDot_get1_eq_afterFirstDot fname h).trans hseg
    constructor
    · intro ht
      simp only [allowed_file, hc, Bool.true_and, h1] at ht
      exact ⟨seg, hseg, (mem_allowed_extensions _).mp ht⟩
    · rintro ⟨seg', hseg', hlow⟩
      have hss : seg' = seg := by
        rw [hseg] at hseg'
        exact (Option.some_inj.mp hseg').symm
      subst hss
      simp only [allowed_file, hc, Bool.true_and, h1]
      exact (mem_allowed_extensions _).mpr hlow
  · have hc : fname.contains '.' = false := by
      rcases hb : fname.contains '.' with _ | _
      · rfl
      · exact absurd (List.elem_iff.mp hb) h
    simp only [allowed_file, hc, Bool.false_and, afterFirstDot_eq_none fname h]
    simp

/-- Configuration `app.config['UPLOAD_FOLDER'] = '/tmp'` from `src/web/server/app.py`. -/
def UPLOAD_FOLDER : List Char :=
  ['/', 't', 'm', 'p']

/-- Observable outcome of `_load_video`: the value it returns (`none`
embeds Python `None`, which is also the implicit return when no branch
returns) and whether `file.save` was executed. -/
structure LoadResult where
  vpath : Option (List Char)
  saved : Bool
deriving DecidableEq

/-- Function `_load_video` from `src/web/server/app.py`, for a POST request.
`filePart` is the content of `request.files['file']` (its filename), or
`none` when the form has no `file` part.  `secure` is werkzeug's
`secure_filename`, an external sanitiser kept abstract.  The branches
mirror the source: missing part → `None`; empty filename → `None`;
`file and _allowed_file(file.filename)` → save to
`os.path.join(UPLOAD_FOLDER, filename)` and return that path; otherwise
fall through and implicitly return `None`.  (A `FileStorage` object is
truthy exactly when its filename is non-empty.) -/
def load_video (secure : List Char → List Char) (filePart : Option (List Char)) :
    LoadResult :=
  match filePart with
  | none => ⟨none, false⟩
  | some fname =>
    if fname = [] then ⟨none, false⟩
    else if decide (fname ≠ []) && allowed_file fname then
      ⟨some (UPLOAD_FOLDER ++ '/' :: secure fname), true⟩
    else ⟨none, false⟩


/-- The rejection condition of `_load_video`: the form has no `file`
part, or the filename is empty, or the extension check fails. -/
def rejectCond (filePart : Option (List Char)) : Prop :=
  filePart = none ∨ filePart = some [] ∨
    ∃ f, filePart = some f ∧ allowed_file f = false

/-- C6: `_load_video` yields a null result — and does not save the
upload — exactly when no `file` part is present, the filename is empty,
or the extension check rejects the filename; concretely `clip.mp4` is
accepted (saved under the upload folder) while `clip.mov`, the empty
filename and the extensionless `clip` are rejected. -/
theorem c6_upload_validation :
    (∀ (secure : List Char → List Char) (filePart : Option (List Char)),
      (((load_video secure filePart).vpath = none) ↔ rejectCond filePart) ∧
      (((load_video secure filePart).saved = false) ↔ rejectCond filePart)) ∧
    load_video id (some ("clip.mp4".toList)) =
      ⟨some ("/tmp/clip.mp4".toList), true⟩ ∧
    load_video id (some ("clip.mov".toList)) = ⟨none, false⟩ ∧
    load_video id (some ("".toList)) = ⟨none, false⟩ ∧
    load_video id (some ("clip".toList)) = ⟨none, false⟩ := by
  refine ⟨?_, by decide, by decide, by decide, by decide⟩
  intro secure filePart
  rcases filePart with _ | f
  · simp [load_video, rejectCond]
  · by_cases hf : f = []
    · subst hf
      simp [load_video, rejectCond]
    · by_cases ha : allowed_file f
      · simp [load_video, rejectCond, hf, ha]
      · simp [load_video, rejectCond, hf, ha]

/-- C10: the extension check keys on the first dot only — `_allowed_file`
accepts a filename iff it contains a dot and the segment between the
first dot and the next dot (or the end of the string), lowercased, is
`mp4`; hence `x.mp4.exe` is accepted while `x.y.mp4` is rejected. -/
theorem c10_extension_keys_on_first_dot :
    (∀ fname : List Char,
      allowed_file fname = true ↔
        ∃ seg, afterFirstDot fname = some seg ∧ lowerStr seg = ['m', 'p', '4']) ∧
    allowed_file ("x.mp4.exe".toList) = true ∧
    allowed_file ("x.y.mp4".toList) = false :=
  ⟨allowed_file_iff, by decide, by decide⟩

/-- A JSON value appearing as the prediction field of the response:
either a JSON number or JSON null. -/
inductive JsonVal where
  | null : JsonVal
  | num : ℚ → JsonVal
deriving DecidableEq

/-- The response of the `/predict` route, `jsonify({'percent': ...})`:
a single-field JSON object. -/
structure PredictResponse where
  percent : JsonVal
deriving DecidableEq

/-- Modelled from the spec: `lie_detector.predict.predict_example` is
code of this repository that is not under `src/` (only its caller,
`face_percent`, is).  The spec describes it as the opaque prediction
collaborator `predict_example(path) -> score`, an inference call that
returns a scalar score; it is embedded as an arbitrary function from the
argument `face_percent` passes it (the path `_load_video` returned, or
Python `None`) to a rational score, universally quantified in the
theorems. -/
def Predictor : Type :=
  Option (List Char) → ℚ

/-- Python's `float()` applied to an already-numeric score is the
identity; `face_percent` wraps the predictor's result with it. -/
def pyFloat (q : ℚ) : ℚ := q

/-- Function `face_percent` from `src/web/server/app.py`, the handler of
`POST /predict`: `vpath = _load_video()`, then
`percent = predict_example(vpath)`, then
`response = jsonify({'percent': float(percent)})`, returned. -/
def face_percent (predictor : Predictor)
    (secure : List Char → List Char) (filePart : Option (List Char)) :
    PredictResponse :=
  let vpath := (load_video secure filePart).vpath
  let percent := predictor vpath
  ⟨JsonVal.num (pyFloat percent)⟩

/-- C9 (evaluation of the code at the failing input): on a POST /predict
request whose multipart form has no `file` field, `_load_video` returns
`None`, yet `face_percent` still feeds that `None` to the prediction
collaborator and wraps the resulting score as a JSON number — for every
score-returning predictor the response's prediction value is that numeric
score and is never JSON null, contrary to the claim. -/
theorem c9_missing_file_gets_numeric_percent (predictor : Predictor)
    (secure : List Char → List Char) :
    (load_video secure none).vpath = none ∧
    face_percent predictor secure none = ⟨JsonVal.num (predictor none)⟩ ∧
    ∀ q : ℚ, JsonVal.num q ≠ JsonVal.null :=
  ⟨rfl, rfl, fun _ h => JsonVal.noConfusion h⟩

end WebApp

namespace TrialData

/-- A filesystem path, as a list of components. -/
abbrev FsPath := List String

/-- Content of a file in the embedded filesystem: raw bytes of no further
interest (a downloaded archive, extracted clips), or one of the two
uncompressed numpy array dumps the materializer writes with `np.save`. -/
inductive Content where
  | raw : Content
  | xarr : List (List Nat) → Content
  | yarr : List Nat → Content
deriving DecidableEq

/-- A per-clip face array produced by the face-extraction collaborator
`generate_cropped_face_video`, embedded as a list of numbers (its shape
is irrelevant to every claim). -/
abbrev FaceArr := List Nat

/-- Explicit process state threaded through the materializer: the files
on disk, the current working directory, and a trace of the units of
external work performed (downloads, per-clip face extractions), recorded
so theorems can count how often that work happens. -/
structure ProcState where
  files : List (FsPath × Content)
  cwd : FsPath
  trace : List String
deriving DecidableEq

/-- Decidable equality of embedded outcomes, used to evaluate the
concrete scenarios. -/
instance instDecEqExcept {e a : Type} [DecidableEq e] [DecidableEq a] :
    DecidableEq (Except e a)
  | .error x, .error y =>
    if h : x = y then .isTrue (h ▸ rfl)
    else .isFalse (fun he => h (Except.error.inj he))
  | .error _, .ok _ => .isFalse (fun he => Except.noConfusion he)
  | .ok _, .error _ => .isFalse (fun he => Except.noConfusion he)
  | .ok x, .ok y =>
    if h : x = y then .isTrue (h ▸ rfl)
    else .isFalse (fun he => h (Except.ok.inj he))

/-- Test `os.path.exists` on the embedded filesystem. -/
def fileExists (s : ProcState) (p : FsPath) : Bool :=
  s.files.any (fun q => q.1 == p)

/-- Write `np.save`: create or overwrite the file at `p`. -/
def writeFile (s : ProcState) (p : FsPath) (c : Content) : ProcState :=
  { s with files := s.files.filter (fun q => !(q.1 == p)) ++ [(p, c)] }

/-- Read `np.load`: return the content at `p`, or raise `FileNotFoundError`. -/
def npLoad (s : ProcState) (p : FsPath) : Except String Content :=
  match s.files.find? (fun q => q.1 == p) with
  | some q => .ok q.2
  | none => .error "FileNotFoundError"

/-- Constant `RAW_DATA_DIRNAME = Dataset.data_dirname() / 'raw'`.
`Dataset.data_dirname()` lives in `lie_detector/datasets/dataset.py`,
which is not under `src/`; the path constants only depend on it as an
abstract root, so each takes it as the parameter `root`. -/
def RAW_DATA_DIRNAME (root : FsPath) : FsPath :=
  root ++ ["raw"]

/-- Constant `PROCESSED_DATA_DIRNAME = Dataset.data_dirname() / 'processed' / 'TrialData'`. -/
def PROCESSED_DATA_DIRNAME (root : FsPath) : FsPath :=
  root ++ ["processed", "TrialData"]

/-- Constant `PROCESSED_DATA_FILENAME = PROCESSED_DATA_DIRNAME / 'X_faces.npy'`. -/
def PROCESSED_DATA_FILENAME (root : FsPath) : FsPath :=
  PROCESSED_DATA_DIRNAME root ++ ["X_faces.npy"]

/-- Constant `PROCESSED_LABELS_FILENAME = PROCESSED_DATA_DIRNAME / 'y.npy'`. -/
def PROCESSED_LABELS_FILENAME (root : FsPath) : FsPath :=
  PROCESSED_DATA_DIRNAME root ++ ["y.npy"]

/-- The raw dataset as `_process_raw_dataset` observes it once extracted:
the directory listings of `TrialData/Clips/Deceptive` and
`TrialData/Clips/Truthful`, in `os.listdir` order.  Every claim concerns
the phase after the unzip-if-absent guard (lines 76-84 of
`trial_dataset.py`), so the listings are taken as given; download and
extraction effects are covered by the abstract `download` collaborator. -/
structure RawWorld where
  deceptiveFiles : List String
  truthfulFiles : List String
deriving DecidableEq

/-- A pandas DataFrame as loaded by `pd.read_csv` from the annotation
CSV (`annotation_csv` in the source): its column labels, and its rows,
each an `id` cell (a clip filename) paired with the remaining cells. -/
structure DataFrame where
  columns : List String
  rows : List (String × List String)
deriving DecidableEq

/-- The pandas boolean-mask selection `df[df.id == f]`: keep the rows
whose `id` cell equals `f`; the column labels are unchanged. -/
def DataFrame.filterId (df : DataFrame) (f : String) : DataFrame :=
  ⟨df.columns, df.rows.filter (fun r => r.1 == f)⟩

/-- Python's `list(df)` iterates the DataFrame, which yields its column
labels (the info axis), not its rows. -/
def DataFrame.toPyList (df : DataFrame) : List String :=
  df.columns

/-- The `microexpressions` entry appended for the clip filename `f`:
`list(annotation_csv[annotation_csv.id == f])` in the source. -/
def microexpressionEntry (df : DataFrame) (f : String) : List String :=
  (df.filterId f).toPyList

/-- The `X_fnames` list built by `_process_raw_dataset`: the Deceptive
listing, then the Truthful listing, each file joined under
`RAW_DATA_DIRNAME/TrialData/Clips/<subdirectory>`. -/
def X_fnames (root : FsPath) (w : RawWorld) : List FsPath :=
  w.deceptiveFiles.map
      (fun f => RAW_DATA_DIRNAME root ++ ["TrialData", "Clips", "Deceptive", f]) ++
    w.truthfulFiles.map
      (fun f => RAW_DATA_DIRNAME root ++ ["TrialData", "Clips", "Truthful", f])

/-- The label list `y` built by `_process_raw_dataset`: a `1` appended
per Deceptive file, then a `0` per Truthful file. -/
def yLabels (w : RawWorld) : List Nat :=
  w.deceptiveFiles.map (fun _ => 1) ++ w.truthfulFiles.map (fun _ => 0)

/-- The `microexpressions` list built by `_process_raw_dataset`, one
entry per enumerated clip file, in the same order. -/
def microexpressionsList (df : DataFrame) (w : RawWorld) : List (List String) :=
  (w.deceptiveFiles ++ w.truthfulFiles).map (microexpressionEntry df)

/-- Trace marker for one invocation of the face-extraction collaborator. -/
def faceEvent : String := "face_extraction"

/-- Trace marker for one run of the download collaborator. -/
def downloadEvent : String := "download"

/-- The face-detection loop of `_process_raw_dataset`: for each entry of
`X_fnames` in order, invoke the face-extraction collaborator `extract`
and accumulate the per-clip arrays; an exception from the collaborator
propagates immediately, carrying the state at that point (no file has
been touched — only the work trace has grown). -/
def detectFaces (extract : FsPath → Except String FaceArr) :
    List FsPath → ProcState → Except (String × ProcState) (List FaceArr × ProcState)
  | [], s => .ok ([], s)
  | f :: fs, s =>
    let s' := { s with trace := s.trace ++ [faceEvent] }
    match extract f with
    | .error e => .error (e, s')
    | .ok a =>
      match detectFaces extract fs s' with
      | .error es => .error es
      | .ok (as, s'') => .ok (a :: as, s'')

/-- Function `_process_raw_dataset` from the point where the raw `TrialData`
folder is present (the unzip-if-absent guard of lines 76-84 is the
`download` collaborator's concern in this embedding): build `X_fnames`,
`y` and `microexpressions` from the listings and the annotation CSV, run
face extraction over every clip, stack the results, and only then
`np.save('X_faces.npy', X)` and `np.save('y.npy', y)` — both paths
relative to the current working directory. -/
def processRawDataset (root : FsPath) (df : DataFrame) (w : RawWorld)
    (extract : FsPath → Except String FaceArr) (s : ProcState) :
    Except (String × ProcState) ProcState :=
  let _ := microexpressionsList df w
  match detectFaces extract (X_fnames root w) s with
  | .error es => .error es
  | .ok (xs, s1) =>
    let s2 := writeFile s1 (s1.cwd ++ ["X_faces.npy"]) (.xarr xs)
    let s3 := writeFile s2 (s2.cwd ++ ["y.npy"]) (.yarr (yLabels w))
    .ok s3

/-- Function `_download_and_process_trial`: remember `curdir = os.getcwd()`,
`os.chdir` into the raw-data directory, run `_download_raw_dataset` (the
external fetch collaborator, `download` here, which in this embedding
also covers the unzip-if-absent step), run `_process_raw_dataset`, then
`os.chdir(curdir)`.  The final `os.chdir(curdir)` is a plain statement,
not a `finally` block, so an exception from download or processing skips
it.  (The `toml.load(METADATA_FILENAME)` step only feeds the archive
name to the download and unzip steps and is absorbed into `download`.) -/
def downloadAndProcessTrial (root : FsPath) (df : DataFrame) (w : RawWorld)
    (extract : FsPath → Except String FaceArr)
    (download : ProcState → Except (String × ProcState) ProcState)
    (s : ProcState) : Except (String × ProcState) ProcState :=
  let curdir := s.cwd
  match download { s with cwd := RAW_DATA_DIRNAME root } with
  | .error es => .error es
  | .ok s1 =>
    match processRawDataset root df w extract s1 with
    | .error es => .error es
    | .ok s2 => .ok { s2 with cwd := curdir }

/-- The materialization guard shared by `TrialDataset.__init__` and
`TrialDataset.load_or_generate_data`:
`if not os.path.exists(str(PROCESSED_DATA_FILENAME)): _download_and_process_trial()`. -/
def ensureMaterialized (root : FsPath) (df : DataFrame) (w : RawWorld)
    (extract : FsPath → Except String FaceArr)
    (download : ProcState → Except (String × ProcState) ProcState)
    (s : ProcState) : Except (String × ProcState) ProcState :=
  if fileExists s (PROCESSED_DATA_FILENAME root) then .ok s
  else downloadAndProcessTrial root df w extract download s

/-- Method `TrialDataset.load_or_generate_data`: the materialization guard, then
`self.X = np.load(PROCESSED_DATA_FILENAME)` and
`self.y = np.load(PROCESSED_LABELS_FILENAME)`; a `FileNotFoundError`
from `np.load` propagates. -/
def load_or_generate_data (root : FsPath) (df : DataFrame) (w : RawWorld)
    (extract : FsPath → Except String FaceArr)
    (download : ProcState → Except (String × ProcState) ProcState)
    (s : ProcState) : Except (String × ProcState) ((Content × Content) × ProcState) :=
  match ensureMaterialized root df w extract download s with
  | .error es => .error es
  | .ok s1 =>
    match npLoad s1 (PROCESSED_DATA_FILENAME root) with
    | .error e => .error (e, s1)
    | .ok cx =>
      match npLoad s1 (PROCESSED_LABELS_FILENAME root) with
      | .error e => .error (e, s1)
      | .ok cy => .ok ((cx, cy), s1)

/-- Data root used by the concrete scenarios. -/
def sampleRoot : FsPath := ["data"]

/-- A small annotation CSV: columns `id` and `OtherGestures`, one row. -/
def sampleDf : DataFrame :=
  ⟨["id", "OtherGestures"], [("trial_lie_001.mp4", ["1"])]⟩

/-- A raw directory with a single deceptive clip. -/
def sampleWorld : RawWorld := ⟨["d1.mp4"], []⟩

/-- The 2-deceptive / 3-truthful raw directory of the end-to-end scenario. -/
def scenarioWorld : RawWorld :=
  ⟨["d1.mp4", "d2.mp4"], ["t1.mp4", "t2.mp4", "t3.mp4"]⟩

/-- A stub face extractor that succeeds on every clip with a fixed
all-zero array. -/
def sampleExtract : FsPath → Except String FaceArr :=
  fun _ => .ok [0]

/-- A download collaborator that succeeds, recording the work performed
and writing no file (the archive and extracted folder are cached from
the embedding's point of view). -/
def traceDownload : ProcState → Except (String × ProcState) ProcState :=
  fun s => .ok { s with trace := s.trace ++ [downloadEvent] }

/-- A fresh process state: empty filesystem, cwd `home`, nothing done. -/
def freshState : ProcState := ⟨[], ["home"], []⟩

/-- A state in which the processed feature tensor already exists at its
canonical path. -/
def stateWithArtifact : ProcState :=
  ⟨[(PROCESSED_DATA_FILENAME sampleRoot, Content.raw)], ["home"], []⟩


theorem detectFaces_ok (g : FsPath → FaceArr) (l : List FsPath) (s : ProcState) :
    detectFaces (fun p => .ok (g p)) l s =
      .ok (l.map g,
        { s with trace := s.trace ++ List.replicate l.length faceEvent }) := by
  induction l generalizing s with
  | nil => simp [detectFaces]
  | cons f fs ih =>
    simp [detectFaces, ih, List.replicate_succ, List.append_assoc]

theorem processRawDataset_ok (root : FsPath) (df : DataFrame) (w : RawWorld)
    (g : FsPath → FaceArr) (s : ProcState) :
    processRawDataset root df w (fun p => .ok (g p)) s =
      .ok (writeFile
            (writeFile
              { s with trace :=
                  s.trace ++ List.replicate (X_fnames root w).length faceEvent }
              (s.cwd ++ ["X_faces.npy"]) (.xarr ((X_fnames root w).map g)))
            (s.cwd ++ ["y.npy"]) (.yarr (yLabels w))) := by
  simp [processRawDataset, detectFaces_ok]
  rfl

theorem find?_filter_append_self (l : List (FsPath × Content)) (p : FsPath)
    (c : Content) :
    ((l.filter (fun q => !(q.1 == p))) ++ [(p, c)]).find? (fun q => q.1 == p) =
      some (p, c) := by
  induction l with
  | nil => simp [List.find?]
  | cons r rs ih =>
    by_cases hr : r.1 = p
    · simp [List.filter_cons, hr, ih]
    · simp only [List.filter_cons]
      rw [if_pos (by simp [hr])]
      rw [List.cons_append, List.find?_cons_of_neg _ (by simp [hr])]
      exact ih

theorem find?_filter_ne (l : List (FsPath × Content)) (p q : FsPath)
    (hpq : p ≠ q) :
    (l.filter (fun r => !(r.1 == q))).find? (fun r => r.1 == p) =
      l.find? (fun r => r.1 == p) := by
  induction l with
  | nil => simp
  | cons r rs ih =>
    by_cases hr : r.1 = p
    · have hq : ¬ r.1 = q := fun he => hpq (hr ▸ he)
      simp only [List.filter_cons]
      rw [if_pos (by simp [hq])]
      rw [List.find?_cons_of_pos _ (by simp [hr]),
        List.find?_cons_of_pos _ (by simp [hr])]
    · by_cases hq : r.1 = q
      · simp only [List.filter_cons]
        rw [if_neg (by simp [hq])]
        rw [ih, List.find?_cons_of_neg _ (by simp [hr])]
      · simp only [List.filter_cons]
        rw [if_pos (by simp [hq])]
        rw [List.find?_cons_of_neg _ (by simp [hr]),
          List.find?_cons_of_neg _ (by simp [hr])]
        exact ih

theorem npLoad_writeFile_same (s : ProcState) (p : FsPath) (c : Content) :
    npLoad (writeFile s p c) p = .ok c := by
  simp only [npLoad, writeFile]
  rw [find?_filter_append_self]

theorem npLoad_writeFile_ne (s : ProcState) (p q : FsPath) (c : Content)
    (h : p ≠ q) :
    npLoad (writeFile s q c) p = npLoad s p := by
  simp only [npLoad, writeFile]
  rw [List.find?_append, find?_filter_ne _ _ _ h,
    List.find?_cons_of_neg _ (by simp [Ne.symm h]), List.find?_nil,
    Option.or_none]

theorem x_path_ne_y_path (c : FsPath) :
    c ++ ["X_faces.npy"] ≠ c ++ ["y.npy"] := by
  intro h
  have := List.append_cancel_left h
  simp at this


theorem detectFaces_error (extract : FsPath → Except String FaceArr)
    (l : List FsPath) (s : ProcState) (f : FsPath) (e : String)
    (h1 : f ∈ l) (h2 : extract f = .error e) :
    ∃ e' s', detectFaces extract l s = .error (e', s') ∧
      s'.files = s.files ∧ s'.cwd = s.cwd := by
  induction l generalizing s with
  | nil => simp at h1
  | cons g gs ih =>
    cases hx : extract g with
    | error e0 =>
      exact ⟨e0, { s with trace := s.trace ++ [faceEvent] },
        by simp [detectFaces, hx], rfl, rfl⟩
    | ok a =>
      have hf : f ∈ gs := by
        rcases List.mem_cons.mp h1 with h | h
        · subst h
          rw [hx] at h2
          cases h2
        · exact h
      obtain ⟨e', s', hd, hfi, hcw⟩ :=
        ih { s with trace := s.trace ++ [faceEvent] } hf
      exact ⟨e', s', by simp [detectFaces, hx, hd], hfi, hcw⟩

theorem deceptive_path_ne_truthful_path (root : FsPath) (f f' : String) :
    RAW_DATA_DIRNAME root ++ ["TrialData", "Clips", "Deceptive", f] ≠
      RAW_DATA_DIRNAME root ++ ["TrialData", "Clips", "Truthful", f'] := by
  intro h
  have := List.append_cancel_left h
  simp at this

theorem yLabels_getElem (w : RawWorld) (i : ℕ) :
    (yLabels w)[i]? =
      if i < w.deceptiveFiles.length then some 1
      else if i < w.deceptiveFiles.length + w.truthfulFiles.length then some 0
      else none := by
  unfold yLabels
  by_cases h1 : i < w.deceptiveFiles.length
  · rw [List.getElem?_append_left (by simpa using h1), List.getElem?_map,
      List.getElem?_eq_getElem h1]
    simp [h1]
  · rw [List.getElem?_append_right (by simpa using Nat.le_of_not_lt h1)]
    by_cases h2 : i < w.deceptiveFiles.length + w.truthfulFiles.length
    · have h3 : i - w.deceptiveFiles.length < w.truthfulFiles.length :=
        Nat.sub_lt_left_of_lt_add (Nat.le_of_not_lt h1) h2
      rw [List.getElem?_map]
      rw [show (w.deceptiveFiles.map fun _ => 1).length = w.deceptiveFiles.length
        from List.length_map _ _]
      rw [List.getElem?_eq_getElem h3]
      simp [h1, h2]
    · rw [List.getElem?_map]
      rw [show (w.deceptiveFiles.map fun _ => 1).length = w.deceptiveFiles.length
        from List.length_map _ _]
      rw [List.getElem?_eq_none
        (by exact Nat.le_sub_of_add_le (by omega))]
      simp [h1, h2]

theorem X_fnames_getElem (root : FsPath) (w : RawWorld) (i : ℕ) :
    (X_fnames root w)[i]? =
      if h1 : i < w.deceptiveFiles.length then
        some (RAW_DATA_DIRNAME root ++
          ["TrialData", "Clips", "Deceptive", w.deceptiveFiles[i]])
      else if h2 : i - w.deceptiveFiles.length < w.truthfulFiles.length then
        some (RAW_DATA_DIRNAME root ++
          ["TrialData", "Clips", "Truthful",
            w.truthfulFiles[i - w.deceptiveFiles.length]])
      else none := by
  unfold X_fnames
  by_cases h1 : i < w.deceptiveFiles.length
  · rw [List.getElem?_append_left (by simpa using h1), List.getElem?_map,
      List.getElem?_eq_getElem h1]
    simp [h1]
  · rw [List.getElem?_append_right (by simpa using Nat.le_of_not_lt h1)]
    rw [List.getElem?_map]
    rw [show (w.deceptiveFiles.map fun f => RAW_DATA_DIRNAME root ++
        ["TrialData", "Clips", "Deceptive", f]).length = w.deceptiveFiles.length
      from List.length_map _ _]
    by_cases h2 : i - w.deceptiveFiles.length < w.truthfulFiles.length
    · rw [List.getElem?_eq_getElem h2]
      simp [h1, h2]
    · rw [List.getElem?_eq_none (Nat.le_of_not_lt h2)]
      simp [h1, h2]


/-- C3: every file enumerated from `Clips/Deceptive` has the label 1
appended for it, and every file enumerated from `Clips/Truthful` the
label 0: the label list built by `_process_raw_dataset` is exactly one
`1` per deceptive file followed by one `0` per truthful file, in
enumeration order. -/
theorem c3_label_correctness (w : RawWorld) :
    yLabels w =
      List.replicate w.deceptiveFiles.length 1 ++
        List.replicate w.truthfulFiles.length 0 := by
  simp [yLabels, List.map_const']

/-- C4: index alignment and construction order — a successful run saves a
feature tensor holding the extractor's output for the i-th entry of
`X_fnames` at index i and the label vector `yLabels` of equal length, and
for every index the label is 1 exactly when the i-th clip path lies under
the Deceptive subdirectory and 0 exactly when it lies under the Truthful
one (all deceptive clips precede all truthful clips); in particular, for
2 deceptive and 3 truthful clips and the stub extractor, the saved tensor
has length 5 and the saved label vector is `[1, 1, 0, 0, 0]`. -/
theorem c4_index_alignment :
    (∀ (root : FsPath) (df : DataFrame) (w : RawWorld) (g : FsPath → FaceArr)
        (s : ProcState),
      ∃ s1, processRawDataset root df w (fun p => .ok (g p)) s = .ok s1 ∧
        npLoad s1 (s.cwd ++ ["X_faces.npy"]) =
          .ok (.xarr ((X_fnames root w).map g)) ∧
        npLoad s1 (s.cwd ++ ["y.npy"]) = .ok (.yarr (yLabels w)) ∧
        ((X_fnames root w).map g).length = (yLabels w).length ∧
        (∀ i : ℕ,
          ((yLabels w)[i]? = some 1 ↔
            ∃ f, (X_fnames root w)[i]? =
              some (RAW_DATA_DIRNAME root ++
                ["TrialData", "Clips", "Deceptive", f])) ∧
          ((yLabels w)[i]? = some 0 ↔
            ∃ f, (X_fnames root w)[i]? =
              some (RAW_DATA_DIRNAME root ++
                ["TrialData", "Clips", "Truthful", f])))) ∧
    (∃ s1, processRawDataset sampleRoot sampleDf scenarioWorld sampleExtract
        freshState = .ok s1 ∧
      ∃ X, npLoad s1 (freshState.cwd ++ ["X_faces.npy"]) = .ok (.xarr X) ∧
        X.length = 5 ∧
        npLoad s1 (freshState.cwd ++ ["y.npy"]) = .ok (.yarr [1, 1, 0, 0, 0])) := by
  constructor
  · intro root df w g s
    refine ⟨_, processRawDataset_ok root df w g s, ?_, ?_, ?_, ?_⟩
    · rw [npLoad_writeFile_ne _ _ _ _ (x_path_ne_y_path s.cwd)]
      exact npLoad_writeFile_same _ _ _
    · exact npLoad_writeFile_same _ _ _
    · simp [X_fnames, yLabels]
    · intro i
      by_cases h1 : i < w.deceptiveFiles.length
      · constructor
        · constructor
          · intro _
            exact ⟨w.deceptiveFiles[i], by rw [X_fnames_getElem, dif_pos h1]⟩
          · intro _
            rw [yLabels_getElem]
            simp [h1]
        · constructor
          · intro hy
            rw [yLabels_getElem] at hy
            simp [h1] at hy
          · rintro ⟨f, hf⟩
            rw [X_fnames_getElem, dif_pos h1] at hf
            exact absurd (Option.some_inj.mp hf)
              (deceptive_path_ne_truthful_path root _ _)
      · by_cases h2 : i < w.deceptiveFiles.length + w.truthfulFiles.length
        · have h2' : i - w.deceptiveFiles.length < w.truthfulFiles.length := by
            omega
          constructor
          · constructor
            · intro hy
              rw [yLabels_getElem] at hy
              simp [h1, h2] at hy
            · rintro ⟨f, hf⟩
              rw [X_fnames_getElem, dif_neg h1, dif_pos h2'] at hf
              exact absurd (Option.some_inj.mp hf).symm
                (deceptive_path_ne_truthful_path root _ _)
          · constructor
            · intro _
              exact ⟨w.truthfulFiles[i - w.deceptiveFiles.length],
                by rw [X_fnames_getElem, dif_neg h1, dif_pos h2']⟩
            · intro _
              rw [yLabels_getElem]
              simp [h1, h2]
        · have h2' : ¬ i - w.deceptiveFiles.length < w.truthfulFiles.length := by
            omega
          constructor
          · constructor
            · intro hy
              rw [yLabels_getElem] at hy
              simp [h1, h2] at hy
            · rintro ⟨f, hf⟩
              rw [X_fnames_getElem, dif_neg h1, dif_neg h2'] at hf
              cases hf
          · constructor
            · intro hy
              rw [yLabels_getElem] at hy
              simp [h1, h2] at hy
            · rintro ⟨f, hf⟩
              rw [X_fnames_getElem, dif_neg h1, dif_neg h2'] at hf
              cases hf
  · refine ⟨_, rfl, [[0], [0], [0], [0], [0]], by decide, rfl, by decide⟩

/-- C7: if face extraction raises for some clip in the list, the
exception propagates out of `_process_raw_dataset` and the filesystem is
unchanged — in particular neither `X_faces.npy` nor `y.npy` has been
written, since the save step only runs after every clip has succeeded. -/
theorem c7_no_partial_dataset_commit (root : FsPath) (df : DataFrame)
    (w : RawWorld) (extract : FsPath → Except String FaceArr) (s : ProcState)
    (f : FsPath) (e : String)
    (h1 : f ∈ X_fnames root w) (h2 : extract f = .error e) :
    ∃ e' s', processRawDataset root df w extract s = .error (e', s') ∧
      s'.files = s.files := by
  obtain ⟨e', s', hd, hfi, _⟩ :=
    detectFaces_error extract (X_fnames root w) s f e h1 h2
  exact ⟨e', s', by simp [processRawDataset, hd], hfi⟩

/-- Witness for C7: one deceptive clip whose face extraction raises; the
run fails and the fresh filesystem is untouched. -/
theorem c7_no_partial_dataset_commit_witness :
    ∃ e' s', processRawDataset sampleRoot sampleDf sampleWorld
        (fun _ => .error "face detection failed") freshState =
        .error (e', s') ∧ s'.files = freshState.files :=
  c7_no_partial_dataset_commit sampleRoot sampleDf sampleWorld
    (fun _ => .error "face detection failed") freshState
    (RAW_DATA_DIRNAME sampleRoot ++ ["TrialData", "Clips", "Deceptive", "d1.mp4"])
    "face detection failed" (by decide) rfl


/-- C5 counterexample: the filename `missing.mp4` matches no row of the
annotation CSV, yet the microexpressions entry appended for it is not
empty — `list(df[df.id == f])` yields the CSV's column labels. -/
theorem c5_counterexample :
    sampleDf.rows.filter (fun r => r.1 == "missing.mp4") = [] ∧
    microexpressionEntry sampleDf "missing.mp4" ≠ [] :=
  ⟨by decide, by decide⟩

/-- C5 (amended): for every clip filename with no exact match in the
annotation CSV's `id` column, the microexpressions entry produced is the
CSV's column-name list (not the empty list, unless the CSV has no
columns), and no error is raised — the lookup is total. -/
theorem c5_lookup_miss_yields_columns (df : DataFrame) (f : String)
    (h : df.rows.filter (fun r => r.1 == f) = []) :
    microexpressionEntry df f = df.columns := by
  simp [microexpressionEntry, DataFrame.filterId, DataFrame.toPyList]

/-- Witness for the amended C5 at the concrete miss. -/
theorem c5_lookup_miss_yields_columns_witness :
    sampleDf.rows.filter (fun r => r.1 == "missing.mp4") = [] ∧
    microexpressionEntry sampleDf "missing.mp4" = sampleDf.columns :=
  ⟨by decide, c5_lookup_miss_yields_columns sampleDf "missing.mp4" (by decide)⟩

/-- C8 counterexample: with a download collaborator that raises, the
exception propagates out of `_download_and_process_trial` with the
working directory still set to the raw-data directory — the original
working directory is not restored on this exit path. -/
theorem c8_counterexample :
    ∃ e s', downloadAndProcessTrial sampleRoot sampleDf sampleWorld
        sampleExtract (fun s => .error ("download failed", s)) freshState =
        .error (e, s') ∧
      s'.cwd = RAW_DATA_DIRNAME sampleRoot ∧ s'.cwd ≠ freshState.cwd :=
  ⟨"download failed", _, rfl, rfl, by decide⟩

/-- C8 (amended): `_download_and_process_trial` changes the working
directory to the raw-data directory for the duration of download and
processing and restores the original working directory on normal
completion; when download or processing raises, the final
`os.chdir(curdir)` is skipped, so restoration holds only on the success
path. -/
theorem c8_cwd_restored_on_success (root : FsPath) (df : DataFrame)
    (w : RawWorld) (extract : FsPath → Except String FaceArr)
    (download : ProcState → Except (String × ProcState) ProcState)
    (s s1 : ProcState)
    (h : downloadAndProcessTrial root df w extract download s = .ok s1) :
    s1.cwd = s.cwd := by
  simp only [downloadAndProcessTrial] at h
  rcases hd : download { s with cwd := RAW_DATA_DIRNAME root } with es | sd
  · simp only [hd] at h
    cases h
  · simp only [hd] at h
    rcases hp : processRawDataset root df w extract sd with es | sp
    · simp only [hp] at h
      cases h
    · simp only [hp] at h
      cases h
      rfl

/-- Witness for the amended C8: a fully successful run restores the
original working directory. -/
theorem c8_cwd_restored_on_success_witness :
    ∃ s1, downloadAndProcessTrial sampleRoot sampleDf sampleWorld
        sampleExtract traceDownload freshState = .ok s1 ∧
      s1.cwd = freshState.cwd :=
  ⟨_, rfl, c8_cwd_restored_on_success sampleRoot sampleDf sampleWorld
    sampleExtract traceDownload freshState _ rfl⟩

/-- C1 (evaluation of the code at the failing input): the existence guard
is indeed a no-op when the feature tensor exists at its canonical
processed path; but a successful materialization run saves `X_faces.npy`
and `y.npy` relative to the working directory at save time — the
raw-data directory — so the canonical artifact still does not exist
afterwards: a second call performs the download and the face-extraction
work again (each ends up performed twice below), and
`load_or_generate_data`'s `np.load` of the canonical path raises
`FileNotFoundError` right after generating.  Materialization is
therefore not idempotent. -/
theorem c1_materialization_not_idempotent :
    ensureMaterialized sampleRoot sampleDf sampleWorld sampleExtract
      traceDownload stateWithArtifact = .ok stateWithArtifact ∧
    (∃ s1 s2,
      ensureMaterialized sampleRoot sampleDf sampleWorld sampleExtract
        traceDownload freshState = .ok s1 ∧
      fileExists s1 (PROCESSED_DATA_FILENAME sampleRoot) = false ∧
      ensureMaterialized sampleRoot sampleDf sampleWorld sampleExtract
        traceDownload s1 = .ok s2 ∧
      s2.trace.count downloadEvent = 2 ∧
      s2.trace.count faceEvent = 2) ∧
    (∃ s3, load_or_generate_data sampleRoot sampleDf sampleWorld sampleExtract
        traceDownload freshState = .error ("FileNotFoundError", s3)) :=
  ⟨rfl, ⟨_, _, rfl, by decide, rfl, by decide, by decide⟩, ⟨_, rfl⟩⟩

/-- C2 (evaluation of the code at the failing input): a successful
materialization run persists exactly two files, both uncompressed numpy
array dumps — but at `raw/X_faces.npy` and `raw/y.npy`, resolved against
the working directory at save time (the raw-data directory), not at the
canonical `processed/TrialData/X_faces.npy` and
`processed/TrialData/y.npy` paths that the existence check reads, which
remain absent. -/
theorem c2_artifacts_saved_under_raw_dir :
    ∃ s1, downloadAndProcessTrial sampleRoot sampleDf sampleWorld
        sampleExtract traceDownload freshState = .ok s1 ∧
      s1.files =
        [(RAW_DATA_DIRNAME sampleRoot ++ ["X_faces.npy"], Content.xarr [[0]]),
         (RAW_DATA_DIRNAME sampleRoot ++ ["y.npy"], Content.yarr [1])] ∧
      fileExists s1 (PROCESSED_DATA_FILENAME sampleRoot) = false ∧
      fileExists s1 (PROCESSED_LABELS_FILENAME sampleRoot) = false :=
  ⟨_, rfl, by decide, by decide, by decide⟩

end TrialData
